import Mathlib

/-!
Verification of the secure-download token lifecycle engine.

The embedding models, state-passing style, the functions of
`src/utils/secureDownloads.ts` (`generateSecureDownloadTokens`,
`verifyDownloadToken`, `logDownloadAttempt`, `revokeDownloadToken`),
the SQL maintenance functions `unlock_progressive_stages` and
`cleanup_expired_sessions` of migration `20250620133340_teal_fog.sql`,
and the MFA page flow of `src/pages/VerifyDownloadPage.tsx`
(`checkSession`, `handleEmailVerification`).

Instants (JS `Date` values) are modelled as natural numbers
(milliseconds since epoch); comparisons mirror the source's `<` / `>`.
The record store is a `Store` structure holding the
`secure_download_tokens` and `download_attempts` tables as lists;
the supabase calls of the source become pure updates of that state.
-/

namespace SecureDl

/-- JS `String.prototype.toLowerCase`, modelled characterwise over the
string's character list. -/
def toLowerCase (s : String) : String := String.mk (s.data.map Char.toLower)

/-- A row of `secure_download_tokens` (interface `SecureDownloadToken`). -/
structure SecureDownloadToken where
  id : Nat
  token : String
  document_id : Nat
  recipient_email : String
  order_id : Nat
  expires_at : Nat
  max_downloads : Nat
  download_count : Nat
  is_active : Bool
  created_at : Nat
  updated_at : Nat
deriving DecidableEq

/-- A row of `download_attempts` (interface `DownloadAttempt`);
`token_id` is null when the presented token did not resolve. -/
structure DownloadAttempt where
  token_id : Option Nat
  attempted_email : String
  ip_address : Option String
  user_agent : Option String
  success : Bool
  failure_reason : Option String
  attempted_at : Nat
deriving DecidableEq

/-- The record store: the two tables the single-factor engine touches. -/
structure Store where
  tokens : List SecureDownloadToken
  attempts : List DownloadAttempt
deriving DecidableEq

/-- The SQL-side `UPDATE secure_download_tokens SET ... WHERE id = idv`:
apply `f` to every row whose `id` equals `idv`. -/
def updateTokenRecord (f : SecureDownloadToken → SecureDownloadToken)
    (idv : Nat) (l : List SecureDownloadToken) : List SecureDownloadToken :=
  l.map fun t => if t.id = idv then f t else t

/-- The audit row `logDownloadAttempt` inserts (its insert payload). -/
def mkAttempt (tokenId : Option Nat) (attemptedEmail : String)
    (success : Bool) (failureReason : Option String)
    (ipAddress userAgent : Option String) (now : Nat) : DownloadAttempt :=
  { token_id := tokenId
    attempted_email := toLowerCase attemptedEmail
    ip_address := ipAddress
    user_agent := userAgent
    success := success
    failure_reason := failureReason
    attempted_at := now }

/-- Function `logDownloadAttempt`: inserts one audit row, lowercasing the
attempted email. The source swallows any insert error (`try/catch` with only
a `console.error`), so a failing insert (`logOk = false`) leaves the store
unchanged and the caller never observes the failure. -/
def logDownloadAttempt (logOk : Bool) (tokenId : Option Nat)
    (attemptedEmail : String) (success : Bool) (failureReason : Option String)
    (ipAddress userAgent : Option String) (now : Nat) (s : Store) : Store :=
  if logOk then
    { s with attempts := s.attempts ++
        [mkAttempt tokenId attemptedEmail success failureReason ipAddress userAgent now] }
  else s

/-- Return value of `verifyDownloadToken` (the `document` field of the
source is the `project_documents` row joined via `tokenData.document_id`
and carries no extra state, so it is represented by `tokenData`). -/
structure VerifyResult where
  valid : Bool
  reason : Option String
  tokenData : Option SecureDownloadToken
deriving DecidableEq

/-- Function `verifyDownloadToken`. Flag `exn` models an unexpected runtime exception
thrown at the initial fetch (the surrounding `try/catch`); `logOk` models
whether the audit inserts succeed. The resolution query is
`.eq('token', token).eq('is_active', true).single()`; the increment on
the ALLOW path writes `tokenData.download_count + 1`, the snapshot value
plus one. -/
def verifyDownloadToken (logOk exn : Bool) (token attemptedEmail : String)
    (ipAddress userAgent : Option String) (now : Nat) (s : Store) :
    VerifyResult × Store :=
  if exn then
    ({ valid := false, reason := some "System error occurred", tokenData := none },
     logDownloadAttempt logOk none attemptedEmail false (some "System error")
       ipAddress userAgent now s)
  else
    match s.tokens.find? (fun t => t.token == token && t.is_active) with
    | none =>
        ({ valid := false, reason := some "Invalid or expired token", tokenData := none },
         logDownloadAttempt logOk none attemptedEmail false
           (some "Invalid or expired token") ipAddress userAgent now s)
    | some tokenData =>
        if now > tokenData.expires_at then
          let s1 := logDownloadAttempt logOk (some tokenData.id) attemptedEmail false
            (some "Token expired") ipAddress userAgent now s
          let l2 := updateTokenRecord
            (fun t => { t with is_active := false, updated_at := now })
            tokenData.id s1.tokens
          let s2 := { s1 with tokens := l2 }
          ({ valid := false, reason := some "Download link has expired", tokenData := none }, s2)
        else if toLowerCase tokenData.recipient_email ≠ toLowerCase attemptedEmail then
          ({ valid := false,
             reason := some "This download link is not authorized for your email address",
             tokenData := none },
           logDownloadAttempt logOk (some tokenData.id) attemptedEmail false
             (some "Email mismatch") ipAddress userAgent now s)
        else if tokenData.download_count ≥ tokenData.max_downloads then
          ({ valid := false, reason := some "Download limit exceeded for this link",
             tokenData := none },
           logDownloadAttempt logOk (some tokenData.id) attemptedEmail false
             (some "Download limit exceeded") ipAddress userAgent now s)
        else
          let s1 := logDownloadAttempt logOk (some tokenData.id) attemptedEmail true none
            ipAddress userAgent now s
          let l2 := updateTokenRecord
            (fun t => { t with download_count := tokenData.download_count + 1,
                               updated_at := now })
            tokenData.id s1.tokens
          let s2 := { s1 with tokens := l2 }
          ({ valid := true, reason := none, tokenData := some tokenData }, s2)

/-- Function `revokeDownloadToken`: set `is_active = false` on the row with the
given id; returns `!error`, here `true` (the store write succeeding). -/
def revokeDownloadToken (tokenId : Nat) (now : Nat) (s : Store) : Bool × Store :=
  let l := updateTokenRecord
    (fun t => { t with is_active := false, updated_at := now }) tokenId s.tokens
  (true, { s with tokens := l })

/-- A document passed to `generateSecureDownloadTokens`. -/
structure DocumentRef where
  id : Nat
  name : String
  url : String
deriving DecidableEq

/-- One element of the list `generateSecureDownloadTokens` returns. -/
structure SecureUrlEntry where
  documentId : Nat
  documentName : String
  secureUrl : String
  expiresAt : Nat
deriving DecidableEq

/-- The row the generator persists for one document (the `insert` payload
of `generateSecureDownloadTokens`): `recipient_email` lowercased,
`download_count` zero, `is_active` true. -/
def newTokenRecord (recipientEmail : String) (orderId expiresAt maxDownloads now nid : Nat)
    (doc : DocumentRef) (tok : String) : SecureDownloadToken :=
  { id := nid
    token := tok
    document_id := doc.id
    recipient_email := toLowerCase recipientEmail
    order_id := orderId
    expires_at := expiresAt
    max_downloads := maxDownloads
    download_count := 0
    is_active := true
    created_at := now
    updated_at := now }

/-- Function `generateSecureDownloadTokens`. Each document is paired with the token
the `generate_secure_token` RPC produced for it (the source calls the RPC
exactly once per document). `nid` supplies the synthetic row id.
A persist whose token collides with an existing row violates the unique
index; the source logs the store error and `continue`s, producing no
output entry and no store change for that document. URL-encoding of the
email is modelled as the identity. -/
def generateSecureDownloadTokens (recipientEmail : String)
    (orderId expiresAt maxDownloads now : Nat) (baseUrl : String) :
    List (DocumentRef × String) → Nat → Store → List SecureUrlEntry × Store
  | [], _, s => ([], s)
  | (doc, tok) :: rest, nid, s =>
    if s.tokens.any (fun t => t.token == tok) then
      generateSecureDownloadTokens recipientEmail orderId expiresAt maxDownloads
        now baseUrl rest nid s
    else
      let record := newTokenRecord recipientEmail orderId expiresAt maxDownloads now nid doc tok
      let s1 : Store := { s with tokens := s.tokens ++ [record] }
      let res := generateSecureDownloadTokens recipientEmail orderId expiresAt
        maxDownloads now baseUrl rest (nid + 1) s1
      ({ documentId := doc.id
         documentName := doc.name
         secureUrl := baseUrl ++ "/secure-download/" ++ tok ++ "?email=" ++ recipientEmail
         expiresAt := expiresAt } :: res.1, res.2)

/-- A row of `secure_download_sessions` (migration `20250620133340`). -/
structure SecureDownloadSession where
  id : Nat
  token : String
  recipient_email : String
  order_id : Nat
  verification_code : String
  expires_at : Nat
  max_downloads : Nat
  download_count : Nat
  is_verified : Bool
  is_active : Bool
  download_window_start : Nat
  download_window_end : Nat
  created_at : Nat
  updated_at : Nat
deriving DecidableEq

/-- Function `checkSession` of `VerifyDownloadPage`: resolve the session by token
among active rows, then the expiry check, then the download-window check
on the current hour; the first failure sets the page error. -/
def checkSession (token : String) (now currentHour : Nat)
    (sessions : List SecureDownloadSession) : Except String SecureDownloadSession :=
  match sessions.find? (fun s => s.token == token && s.is_active) with
  | none => .error "Invalid or expired session token"
  | some session =>
    if session.expires_at < now then
      .error "This download session has expired"
    else if currentHour < session.download_window_start ||
        session.download_window_end < currentHour then
      .error ("Downloads are only allowed between " ++
        toString session.download_window_start ++ ":00 and " ++
        toString session.download_window_end ++ ":00")
    else .ok session

/-- Function `handleEmailVerification`: the step-1 identity check, case-insensitive
against `recipient_email`. -/
def handleEmailVerification (email : String) (session : SecureDownloadSession) :
    Option String :=
  if toLowerCase email ≠ toLowerCase session.recipient_email then
    some "Email address does not match the authorized recipient"
  else none

/-- The first denial an MFA verify attempt reports: `checkSession` runs at
page load (resolution, expiry, download window), and only once it passes
does step 1 compare the entered email. -/
def mfaFirstDenial (token email : String) (now currentHour : Nat)
    (sessions : List SecureDownloadSession) : Option String :=
  match checkSession token now currentHour sessions with
  | .error e => some e
  | .ok session => handleEmailVerification email session

/-- A row of `progressive_unlocks`. -/
structure ProgressiveUnlock where
  id : Nat
  session_id : Nat
  review_stage : String
  unlock_time : Nat
  is_unlocked : Bool
  unlocked_at : Option Nat
  created_at : Nat
deriving DecidableEq

/-- A row of `blockchain_download_sessions` (lifecycle fields). -/
structure BlockchainSession where
  id : Nat
  order_id : Nat
  recipient_email : String
  blockchain_tx_id : String
  expires_at : Nat
  is_active : Bool
  updated_at : Nat
deriving DecidableEq

/-- A row of `progressive_download_sessions` (lifecycle fields). -/
structure ProgressiveSession where
  id : Nat
  token : String
  recipient_email : String
  expires_at : Nat
  is_active : Bool
  updated_at : Nat
deriving DecidableEq

/-- A row of `customer_portals` (lifecycle fields). -/
structure CustomerPortal where
  id : Nat
  access_token : String
  customer_email : String
  expires_at : Nat
  is_active : Bool
  updated_at : Nat
deriving DecidableEq

/-- A row of `qr_download_sessions` (lifecycle fields). -/
structure QrSession where
  id : Nat
  verification_token : String
  recipient_email : String
  expires_at : Nat
  is_active : Bool
  is_scanned : Bool
deriving DecidableEq

/-- The tables the two SQL maintenance functions touch. -/
structure SweepState where
  secure_download_sessions : List SecureDownloadSession
  blockchain_download_sessions : List BlockchainSession
  progressive_download_sessions : List ProgressiveSession
  customer_portals : List CustomerPortal
  qr_download_sessions : List QrSession
  progressive_unlocks : List ProgressiveUnlock
deriving DecidableEq

/-- The row update of `unlock_progressive_stages`:
`SET is_unlocked = true, unlocked_at = now() WHERE unlock_time <= now()
AND is_unlocked = false`. -/
def unlockStageRow (now : Nat) (u : ProgressiveUnlock) : ProgressiveUnlock :=
  if u.unlock_time ≤ now ∧ u.is_unlocked = false then
    { u with is_unlocked := true, unlocked_at := some now }
  else u

/-- SQL function `unlock_progressive_stages()`. -/
def unlock_progressive_stages (now : Nat) (st : SweepState) : SweepState :=
  { st with progressive_unlocks := st.progressive_unlocks.map (unlockStageRow now) }

/-- SQL function `cleanup_expired_sessions()`: for each of the five session tables,
`SET is_active = false WHERE expires_at < now() AND is_active = true`
(bumping `updated_at` on all but `qr_download_sessions`, whose UPDATE
sets only `is_active`). -/
def cleanup_expired_sessions (now : Nat) (st : SweepState) : SweepState :=
  { st with
    secure_download_sessions := st.secure_download_sessions.map fun r =>
      if r.expires_at < now ∧ r.is_active = true then
        { r with is_active := false, updated_at := now } else r
    blockchain_download_sessions := st.blockchain_download_sessions.map fun r =>
      if r.expires_at < now ∧ r.is_active = true then
        { r with is_active := false, updated_at := now } else r
    progressive_download_sessions := st.progressive_download_sessions.map fun r =>
      if r.expires_at < now ∧ r.is_active = true then
        { r with is_active := false, updated_at := now } else r
    customer_portals := st.customer_portals.map fun r =>
      if r.expires_at < now ∧ r.is_active = true then
        { r with is_active := false, updated_at := now } else r
    qr_download_sessions := st.qr_download_sessions.map fun r =>
      if r.expires_at < now ∧ r.is_active = true then
        { r with is_active := false } else r }

/-- The read phase of a verify call: the snapshot it resolved, provided
every check passes (this is exactly the guard structure of
`verifyDownloadToken`'s ALLOW branch). -/
def allowSnapshot (token attemptedEmail : String) (now : Nat) (s : Store) :
    Option SecureDownloadToken :=
  match s.tokens.find? (fun t => t.token == token && t.is_active) with
  | none => none
  | some tokenData =>
    if now > tokenData.expires_at then none
    else if toLowerCase tokenData.recipient_email ≠ toLowerCase attemptedEmail then none
    else if tokenData.download_count ≥ tokenData.max_downloads then none
    else some tokenData

/-- The write phase: the `update` of the ALLOW branch, writing the
snapshot's count plus one. -/
def applyIncrement (snap : SecureDownloadToken) (now : Nat) (s : Store) : Store :=
  let l := updateTokenRecord
    (fun t => { t with download_count := snap.download_count + 1, updated_at := now })
    snap.id s.tokens
  { s with tokens := l }

/-- Two concurrent verify calls on the same token and identity: both read
phases run against the initial store (the race window), then the write
phases land in turn. Returns each call's success and the final store. -/
def twoConcurrentVerifies (token attemptedEmail : String) (now : Nat) (s : Store) :
    Bool × Bool × Store :=
  let snapA := allowSnapshot token attemptedEmail now s
  let snapB := allowSnapshot token attemptedEmail now s
  let s1 := match snapA with
    | some td => applyIncrement td now s
    | none => s
  let s2 := match snapB with
    | some td => applyIncrement td now s1
    | none => s1
  (snapA.isSome, snapB.isSome, s2)

/-- Concrete grant on its last remaining quota slot. -/
def raceGrant : SecureDownloadToken :=
  { id := 1, token := "tok1", document_id := 7, recipient_email := "a@b.com",
    order_id := 3, expires_at := 100, max_downloads := 3, download_count := 2,
    is_active := true, created_at := 0, updated_at := 0 }

/-- Store holding just `raceGrant` and an empty audit table. -/
def raceStore : Store := { tokens := [raceGrant], attempts := [] }

/-- A revoked copy of `raceGrant`. -/
def revokedGrant : SecureDownloadToken := { raceGrant with is_active := false }

/-- Store holding only the revoked grant. -/
def revokedStore : Store := { tokens := [revokedGrant], attempts := [] }

/-- Concrete MFA session, download window 9:00-18:00. -/
def mfaSession1 : SecureDownloadSession :=
  { id := 1, token := "mtok", recipient_email := "a@b.com", order_id := 2,
    verification_code := "123456", expires_at := 1000, max_downloads := 3,
    download_count := 0, is_verified := false, is_active := true,
    download_window_start := 9, download_window_end := 18,
    created_at := 0, updated_at := 0 }

/-- A document whose generated token collides with `raceGrant.token`. -/
def collideDoc : DocumentRef := { id := 9, name := "doc", url := "u" }

/-- A due-but-locked unlock entry. -/
def dueRow : ProgressiveUnlock :=
  { id := 1, session_id := 2, review_stage := "review_1", unlock_time := 20,
    is_unlocked := false, unlocked_at := none, created_at := 0 }

/-- Concrete sweep state: one locked-but-due unlock entry, one expired MFA session. -/
def sweepState1 : SweepState :=
  { secure_download_sessions := [{ mfaSession1 with expires_at := 10 }]
    blockchain_download_sessions := []
    progressive_download_sessions := []
    customer_portals := []
    qr_download_sessions := []
    progressive_unlocks := [dueRow] }

/-- An already-unlocked entry. -/
def unlockedRow : ProgressiveUnlock :=
  { id := 3, session_id := 2, review_stage := "review_2", unlock_time := 20,
    is_unlocked := true, unlocked_at := some 20, created_at := 0 }

/-! ### Helper lemmas -/

theorem logDownloadAttempt_tokens (logOk : Bool) (tid : Option Nat) (email : String)
    (succ : Bool) (reason : Option String) (ip ua : Option String) (now : Nat) (s : Store) :
    (logDownloadAttempt logOk tid email succ reason ip ua now s).tokens = s.tokens := by
  unfold logDownloadAttempt
  split <;> rfl

theorem verify_exn_eq (logOk : Bool) (token email : String) (ip ua : Option String)
    (now : Nat) (s : Store) :
    verifyDownloadToken logOk true token email ip ua now s
      = ({ valid := false, reason := some "System error occurred", tokenData := none },
         logDownloadAttempt logOk none email false (some "System error") ip ua now s) := by
  unfold verifyDownloadToken
  simp

theorem verify_none_eq (logOk : Bool) (token email : String) (ip ua : Option String)
    (now : Nat) (s : Store)
    (h : s.tokens.find? (fun t => t.token == token && t.is_active) = none) :
    verifyDownloadToken logOk false token email ip ua now s
      = ({ valid := false, reason := some "Invalid or expired token", tokenData := none },
         logDownloadAttempt logOk none email false (some "Invalid or expired token")
           ip ua now s) := by
  unfold verifyDownloadToken
  rw [h]
  simp

theorem verify_expired_eq (logOk : Bool) (token email : String) (ip ua : Option String)
    (now : Nat) (s : Store) (td : SecureDownloadToken)
    (hfind : s.tokens.find? (fun t => t.token == token && t.is_active) = some td)
    (hexp : now > td.expires_at) :
    verifyDownloadToken logOk false token email ip ua now s
      = ({ valid := false, reason := some "Download link has expired", tokenData := none },
         let s1 := logDownloadAttempt logOk (some td.id) email false
           (some "Token expired") ip ua now s
         { s1 with tokens := (updateTokenRecord
             (fun t => { t with is_active := false, updated_at := now }) td.id s1.tokens) }) := by
  unfold verifyDownloadToken
  rw [hfind]
  simp [hexp]

theorem verify_mismatch_eq (logOk : Bool) (token email : String) (ip ua : Option String)
    (now : Nat) (s : Store) (td : SecureDownloadToken)
    (hfind : s.tokens.find? (fun t => t.token == token && t.is_active) = some td)
    (hnexp : ¬ now > td.expires_at)
    (hmm : toLowerCase td.recipient_email ≠ toLowerCase email) :
    verifyDownloadToken logOk false token email ip ua now s
      = ({ valid := false,
           reason := some "This download link is not authorized for your email address",
           tokenData := none },
         logDownloadAttempt logOk (some td.id) email false (some "Email mismatch")
           ip ua now s) := by
  unfold verifyDownloadToken
  rw [hfind]
  simp [hnexp, hmm]

theorem verify_quota_eq (logOk : Bool) (token email : String) (ip ua : Option String)
    (now : Nat) (s : Store) (td : SecureDownloadToken)
    (hfind : s.tokens.find? (fun t => t.token == token && t.is_active) = some td)
    (hnexp : ¬ now > td.expires_at)
    (hmatch : toLowerCase td.recipient_email = toLowerCase email)
    (hquota : td.download_count ≥ td.max_downloads) :
    verifyDownloadToken logOk false token email ip ua now s
      = ({ valid := false, reason := some "Download limit exceeded for this link",
           tokenData := none },
         logDownloadAttempt logOk (some td.id) email false (some "Download limit exceeded")
           ip ua now s) := by
  unfold verifyDownloadToken
  rw [hfind]
  simp [hnexp, hmatch, hquota]

theorem verify_allow_eq (logOk : Bool) (token email : String) (ip ua : Option String)
    (now : Nat) (s : Store) (td : SecureDownloadToken)
    (hfind : s.tokens.find? (fun t => t.token == token && t.is_active) = some td)
    (hnexp : ¬ now > td.expires_at)
    (hmatch : toLowerCase td.recipient_email = toLowerCase email)
    (hlt : td.download_count < td.max_downloads) :
    verifyDownloadToken logOk false token email ip ua now s
      = ({ valid := true, reason := none, tokenData := some td },
         let s1 := logDownloadAttempt logOk (some td.id) email true none ip ua now s
         { s1 with tokens := (updateTokenRecord
             (fun t => { t with download_count := td.download_count + 1, updated_at := now })
             td.id s1.tokens) }) := by
  unfold verifyDownloadToken
  rw [hfind]
  simp [hnexp, hmatch, Nat.not_le.mpr hlt, not_le.mpr hlt]

theorem actives_from_actives_map (l : List SecureDownloadToken)
    (f : SecureDownloadToken → SecureDownloadToken)
    (hf : ∀ t, (f t).is_active = true → t.is_active = true)
    (i : Nat) (t1 : SecureDownloadToken)
    (h : (l.map f)[i]? = some t1) (hact : t1.is_active = true) :
    ∃ t0, l[i]? = some t0 ∧ t0.is_active = true := by
  rw [List.getElem?_map] at h
  cases h0 : l[i]? with
  | none => rw [h0] at h; exact absurd h (by simp)
  | some t0 =>
    rw [h0] at h
    simp at h
    exact ⟨t0, rfl, hf t0 (h ▸ hact)⟩

theorem allow_branch_is_read_then_write (token email : String) (ip ua : Option String)
    (now : Nat) (s : Store) (td : SecureDownloadToken)
    (h : allowSnapshot token email now s = some td) :
    verifyDownloadToken true false token email ip ua now s
      = ({ valid := true, reason := none, tokenData := some td },
         applyIncrement td now
           (logDownloadAttempt true (some td.id) email true none ip ua now s)) := by
  unfold allowSnapshot at h
  cases hf : s.tokens.find? (fun t => t.token == token && t.is_active) with
  | none => rw [hf] at h; exact Option.noConfusion h
  | some td0 =>
    rw [hf] at h
    by_cases h2 : now > td0.expires_at
    · simp [h2] at h
    · by_cases h3 : toLowerCase td0.recipient_email ≠ toLowerCase email
      · simp [h2, h3] at h
      · by_cases h4 : td0.download_count ≥ td0.max_downloads
        · simp [h2, h3, h4] at h
        · simp only [if_neg h2, if_neg h3, if_neg h4, Option.some.injEq] at h
          subst h
          push_neg at h3
          rw [verify_allow_eq true token email ip ua now s td0 hf h2 h3
            (Nat.lt_of_not_le h4)]
          rfl

theorem unlockStageRow_idem (now : Nat) (u : ProgressiveUnlock) :
    unlockStageRow now (unlockStageRow now u) = unlockStageRow now u := by
  unfold unlockStageRow
  by_cases h : u.unlock_time ≤ now ∧ u.is_unlocked = false
  · simp [h]
  · simp [h]

/-! ### Claims -/

/-- C1 counterexample: on a grant with `max_downloads = 3` and
`download_count = 2` (one remaining quota slot), two concurrent verify
calls interleaving at the read/write boundary of the ALLOW branch both
succeed, because the increment is a read-modify-write of the snapshot in
application code rather than a store-level conditional
compare-and-increment; the claimed "concurrent verify calls cannot race
past the quota" fails. -/
theorem C1_counterexample_concurrentRaceBothSucceed :
    raceGrant.max_downloads = 3 ∧ raceGrant.download_count = 2 ∧
    (twoConcurrentVerifies "tok1" "a@b.com" 50 raceStore).1 = true ∧
    (twoConcurrentVerifies "tok1" "a@b.com" 50 raceStore).2.1 = true ∧
    (twoConcurrentVerifies "tok1" "a@b.com" 50 raceStore).2.2.tokens.map
        (fun t => t.download_count) = [3] := by
  decide

/-- C1 (amended): under sequential execution every verify call preserves
the invariant `download_count ≤ max_downloads` (the quota check precedes
the increment) and leaves the table's row ids unchanged; the concurrency
half of the original claim does not hold (see the counterexample). -/
theorem C1_amended_quotaInvariantSequential (logOk exn : Bool) (token email : String) (ip ua : Option String)
    (now : Nat) (s : Store)
    (hids : s.tokens.Pairwise (fun a b => a.id ≠ b.id))
    (hinv : ∀ t ∈ s.tokens, t.download_count ≤ t.max_downloads) :
    (∀ t ∈ (verifyDownloadToken logOk exn token email ip ua now s).2.tokens,
       t.download_count ≤ t.max_downloads) ∧
    (verifyDownloadToken logOk exn token email ip ua now s).2.tokens.map (fun t => t.id)
      = s.tokens.map (fun t => t.id) := by
  have hKeep : ∀ (f : SecureDownloadToken → SecureDownloadToken) (idv : Nat),
      (∀ t, (f t).id = t.id) →
      (updateTokenRecord f idv s.tokens).map (fun t => t.id)
        = s.tokens.map (fun t => t.id) := by
    intro f idv hid
    unfold updateTokenRecord
    rw [List.map_map]
    apply List.map_congr_left
    intro t _
    by_cases h : t.id = idv <;> simp [h, hid]
  cases hexn : exn with
  | true =>
    subst hexn
    rw [verify_exn_eq]
    simp only [logDownloadAttempt_tokens]
    exact ⟨hinv, by trivial⟩
  | false =>
    subst hexn
    cases hf : s.tokens.find? (fun t => t.token == token && t.is_active) with
    | none =>
      rw [verify_none_eq logOk token email ip ua now s hf]
      simp only [logDownloadAttempt_tokens]
      exact ⟨hinv, by trivial⟩
    | some td =>
      have htdmem : td ∈ s.tokens := List.mem_of_find?_eq_some hf
      have huniq : ∀ t0 ∈ s.tokens, t0.id = td.id → t0 = td := by
        intro t0 ht0 hid
        by_contra hne
        exact hids.forall (by intro x y h e; exact h e.symm) ht0 htdmem hne hid
      by_cases h2 : now > td.expires_at
      · rw [verify_expired_eq logOk token email ip ua now s td hf h2]
        simp only [logDownloadAttempt_tokens]
        refine ⟨?_, hKeep _ _ (fun t => rfl)⟩
        intro t ht
        simp only [updateTokenRecord, List.mem_map] at ht
        obtain ⟨t0, ht0, rfl⟩ := ht
        by_cases h : t0.id = td.id <;> simp [h] <;> exact hinv t0 ht0
      · by_cases h3 : toLowerCase td.recipient_email ≠ toLowerCase email
        · rw [verify_mismatch_eq logOk token email ip ua now s td hf h2 h3]
          simp only [logDownloadAttempt_tokens]
          exact ⟨hinv, by trivial⟩
        · push_neg at h3
          by_cases h4 : td.download_count ≥ td.max_downloads
          · rw [verify_quota_eq logOk token email ip ua now s td hf h2 h3 h4]
            simp only [logDownloadAttempt_tokens]
            exact ⟨hinv, by trivial⟩
          · rw [verify_allow_eq logOk token email ip ua now s td hf h2 h3
              (Nat.lt_of_not_le h4)]
            simp only [logDownloadAttempt_tokens]
            refine ⟨?_, hKeep _ _ (fun t => rfl)⟩
            intro t ht
            simp only [updateTokenRecord, List.mem_map] at ht
            obtain ⟨t0, ht0, rfl⟩ := ht
            by_cases h : t0.id = td.id
            · have : t0 = td := huniq t0 ht0 h
              subst this
              simp [h]
              exact Nat.succ_le_of_lt (Nat.lt_of_not_le h4)
            · simp [h]
              exact hinv t0 ht0

/-- Witness for C1 (amended) at a concrete store. -/
theorem C1_amended_quotaInvariantSequential_witness :
    (∀ t ∈ (verifyDownloadToken true false "tok1" "a@b.com" none none 50 raceStore).2.tokens,
       t.download_count ≤ t.max_downloads) ∧
    (verifyDownloadToken true false "tok1" "a@b.com" none none 50 raceStore).2.tokens.map
        (fun t => t.id)
      = raceStore.tokens.map (fun t => t.id) :=
  C1_amended_quotaInvariantSequential true false "tok1" "a@b.com" none none 50 raceStore
    (by decide) (by decide)

/-- C2 counterexample: in the MFA flow a session whose presented identity
mismatches while the current hour lies outside the download window reports
the window reason, not the identity reason — the window gate runs at
session load, before the identity step, contradicting the claimed order
(identity match before variant-specific gates). -/
theorem C2_counterexample_windowBeforeIdentity :
    toLowerCase "wrong@b.com" ≠ toLowerCase mfaSession1.recipient_email ∧
    mfaFirstDenial "mtok" "wrong@b.com" 500 20 [mfaSession1]
      = some "Downloads are only allowed between 9:00 and 18:00" ∧
    mfaFirstDenial "mtok" "wrong@b.com" 500 20 [mfaSession1]
      ≠ some "Email address does not match the authorized recipient" := by
  refine ⟨by decide, by decide, by decide⟩

/-- C2 (amended): for `verifyDownloadToken` the checks run in the fixed
order resolution → expiry → identity → quota, and the first failing check
alone determines the reported reason; in the MFA flow the download-window
gate is evaluated during `checkSession`, before the identity-match step. -/
theorem C2_amended_fixedOrderFirstFailureWins (logOk : Bool) (token email : String) (ip ua : Option String)
    (now hour : Nat) (s : Store) (sessions : List SecureDownloadSession) :
    (s.tokens.find? (fun t => t.token == token && t.is_active) = none →
       (verifyDownloadToken logOk false token email ip ua now s).1.reason
         = some "Invalid or expired token") ∧
    (∀ td, s.tokens.find? (fun t => t.token == token && t.is_active) = some td →
      (now > td.expires_at →
        (verifyDownloadToken logOk false token email ip ua now s).1.reason
          = some "Download link has expired") ∧
      (¬ now > td.expires_at → toLowerCase td.recipient_email ≠ toLowerCase email →
        (verifyDownloadToken logOk false token email ip ua now s).1.reason
          = some "This download link is not authorized for your email address") ∧
      (¬ now > td.expires_at → toLowerCase td.recipient_email = toLowerCase email →
        td.download_count ≥ td.max_downloads →
        (verifyDownloadToken logOk false token email ip ua now s).1.reason
          = some "Download limit exceeded for this link") ∧
      (¬ now > td.expires_at → toLowerCase td.recipient_email = toLowerCase email →
        td.download_count < td.max_downloads →
        (verifyDownloadToken logOk false token email ip ua now s).1.valid = true)) ∧
    (∀ session, sessions.find? (fun t => t.token == token && t.is_active) = some session →
      ¬ session.expires_at < now →
      (hour < session.download_window_start ∨ session.download_window_end < hour) →
      mfaFirstDenial token email now hour sessions
        = some ("Downloads are only allowed between " ++
            toString session.download_window_start ++ ":00 and " ++
            toString session.download_window_end ++ ":00")) := by
  refine ⟨?_, ?_, ?_⟩
  · intro hnone
    rw [verify_none_eq logOk token email ip ua now s hnone]
  · intro td hf
    refine ⟨?_, ?_, ?_, ?_⟩
    · intro h2
      rw [verify_expired_eq logOk token email ip ua now s td hf h2]
    · intro h2 h3
      rw [verify_mismatch_eq logOk token email ip ua now s td hf h2 h3]
    · intro h2 h3 h4
      rw [verify_quota_eq logOk token email ip ua now s td hf h2 h3 h4]
    · intro h2 h3 h4
      rw [verify_allow_eq logOk token email ip ua now s td hf h2 h3 h4]
  · intro session hf hexp hwin
    have hb : (decide (hour < session.download_window_start) ||
        decide (session.download_window_end < hour)) = true := by
      rcases hwin with h | h <;> simp [h]
    unfold mfaFirstDenial checkSession
    rw [hf]
    simp only [if_neg hexp, hb, if_true]

/-- Witness for C2 (amended): the identity reason is reported at a
concrete store with a good quota and expiry. -/
theorem C2_amended_fixedOrderFirstFailureWins_witness :
    (verifyDownloadToken true false "tok1" "x@b.com" none none 50 raceStore).1.reason
      = some "This download link is not authorized for your email address" :=
  ((C2_amended_fixedOrderFirstFailureWins true "tok1" "x@b.com" none none 50 20 raceStore []).2.1 raceGrant
    (by decide)).2.1 (by decide) (by decide)

/-- C3: a verify call on a resolvable active grant whose `expires_at` is
in the past returns the Expired denial, persists `is_active = false` on
that grant's rows, and appends exactly the audit row for the attempt. -/
theorem C3_expiredVerifyDeactivatesDeniesLogs (token email : String) (ip ua : Option String) (now : Nat)
    (s : Store) (td : SecureDownloadToken)
    (hfind : s.tokens.find? (fun t => t.token == token && t.is_active) = some td)
    (hexp : now > td.expires_at) :
    (verifyDownloadToken true false token email ip ua now s).1
      = { valid := false, reason := some "Download link has expired", tokenData := none } ∧
    (∀ t ∈ (verifyDownloadToken true false token email ip ua now s).2.tokens,
       t.id = td.id → t.is_active = false) ∧
    (verifyDownloadToken true false token email ip ua now s).2.attempts
      = s.attempts ++
        [{ token_id := some td.id, attempted_email := toLowerCase email,
           ip_address := ip, user_agent := ua, success := false,
           failure_reason := some "Token expired", attempted_at := now }] := by
  unfold verifyDownloadToken
  rw [hfind]
  simp only [Bool.false_eq_true, if_false, if_pos hexp]
  refine ⟨by trivial, ?_, by trivial⟩
  intro t ht hid
  simp only [logDownloadAttempt, if_pos rfl, updateTokenRecord, List.mem_map] at ht
  obtain ⟨t0, _, rfl⟩ := ht  -- t = if t0.id = td.id then ... else t0
  by_cases h : t0.id = td.id
  · simp [h]
  · simp [h] at hid ⊢

/-- Witness for C3 at a concrete expired grant. -/
theorem C3_expiredVerifyDeactivatesDeniesLogs_witness :
    (verifyDownloadToken true false "tok1" "a@b.com" none none 200 raceStore).1
      = { valid := false, reason := some "Download link has expired", tokenData := none } :=
  (C3_expiredVerifyDeactivatesDeniesLogs "tok1" "a@b.com" none none 200 raceStore raceGrant (by decide) (by decide)).1

/-- C4: once every record holding a token is inactive, a verify call on
that token never returns ALLOW; and none of verify, revoke, or the token
generator ever flips an existing row from inactive back to active (the
generator only appends, leaving existing rows untouched). -/
theorem C4_inactiveGrantNeverAllowsAgain (logOk exn : Bool) (token email : String) (ip ua : Option String)
    (now : Nat) (s : Store) :
    ((∀ t ∈ s.tokens, t.token = token → t.is_active = false) →
       (verifyDownloadToken logOk exn token email ip ua now s).1.valid = false) ∧
    (∀ (i : Nat) (t1 : SecureDownloadToken),
       (verifyDownloadToken logOk exn token email ip ua now s).2.tokens[i]? = some t1 →
       t1.is_active = true → ∃ t0, s.tokens[i]? = some t0 ∧ t0.is_active = true) ∧
    (∀ (tid i : Nat) (t1 : SecureDownloadToken),
       (revokeDownloadToken tid now s).2.tokens[i]? = some t1 →
       t1.is_active = true → ∃ t0, s.tokens[i]? = some t0 ∧ t0.is_active = true) ∧
    (∀ (orderId expAt maxDl gnow : Nat) (base : String)
       (docs : List (DocumentRef × String)) (nid i : Nat) (t0 : SecureDownloadToken),
       s.tokens[i]? = some t0 →
       (generateSecureDownloadTokens email orderId expAt maxDl gnow base docs nid s).2.tokens[i]?
         = some t0) := by
  refine ⟨?_, ?_, ?_, ?_⟩
  · intro hall
    cases hexn : exn with
    | true => subst hexn; rw [verify_exn_eq]
    | false =>
      subst hexn
      have hnone : s.tokens.find? (fun t => t.token == token && t.is_active) = none := by
        rw [List.find?_eq_none]
        intro t ht
        simp only [Bool.and_eq_true, beq_iff_eq, not_and]
        intro htok
        simp [hall t ht htok]
      rw [verify_none_eq logOk token email ip ua now s hnone]
  · intro i t1 h1 hact
    cases hexn : exn with
    | true =>
      subst hexn
      rw [verify_exn_eq] at h1
      simp only [logDownloadAttempt_tokens] at h1
      exact ⟨t1, h1, hact⟩
    | false =>
      subst hexn
      cases hf : s.tokens.find? (fun t => t.token == token && t.is_active) with
      | none =>
        rw [verify_none_eq logOk token email ip ua now s hf] at h1
        simp only [logDownloadAttempt_tokens] at h1
        exact ⟨t1, h1, hact⟩
      | some td =>
        by_cases h2 : now > td.expires_at
        · rw [verify_expired_eq logOk token email ip ua now s td hf h2] at h1
          simp only [logDownloadAttempt_tokens, updateTokenRecord] at h1
          exact actives_from_actives_map s.tokens _
            (by intro t ht; by_cases hid : t.id = td.id <;> simp [hid] at ht ⊢ <;> exact ht)
            i t1 h1 hact
        · by_cases h3 : toLowerCase td.recipient_email ≠ toLowerCase email
          · rw [verify_mismatch_eq logOk token email ip ua now s td hf h2 h3] at h1
            simp only [logDownloadAttempt_tokens] at h1
            exact ⟨t1, h1, hact⟩
          · push_neg at h3
            by_cases h4 : td.download_count ≥ td.max_downloads
            · rw [verify_quota_eq logOk token email ip ua now s td hf h2 h3 h4] at h1
              simp only [logDownloadAttempt_tokens] at h1
              exact ⟨t1, h1, hact⟩
            · rw [verify_allow_eq logOk token email ip ua now s td hf h2 h3
                (Nat.lt_of_not_le h4)] at h1
              simp only [logDownloadAttempt_tokens, updateTokenRecord] at h1
              exact actives_from_actives_map s.tokens _
                (by intro t ht; by_cases hid : t.id = td.id <;> simp [hid] at ht ⊢ <;> exact ht)
                i t1 h1 hact
  · intro tid i t1 h1 hact
    simp only [revokeDownloadToken, updateTokenRecord] at h1
    exact actives_from_actives_map s.tokens _
      (by intro t ht; by_cases hid : t.id = tid <;> simp [hid] at ht ⊢ <;> exact ht)
      i t1 h1 hact
  · intro orderId expAt maxDl gnow base docs nid i t0 h0
    induction docs generalizing nid s with
    | nil => simpa [generateSecureDownloadTokens] using h0
    | cons hd tl ih =>
      obtain ⟨doc, tok⟩ := hd
      by_cases hc : s.tokens.any (fun t => t.token == tok)
      · simpa [generateSecureDownloadTokens, hc] using ih s nid h0
      · have hlen : i < s.tokens.length := by
          by_contra hge
          rw [List.getElem?_eq_none (Nat.le_of_not_lt hge)] at h0
          exact Option.noConfusion h0
        simp only [generateSecureDownloadTokens, hc, if_neg hc]
        exact ih _ (nid + 1) (by
          show (s.tokens ++ _)[i]? = some t0
          rw [List.getElem?_append, if_pos hlen]
          exact h0)

/-- Witness for C4 at a concrete revoked store. -/
theorem C4_inactiveGrantNeverAllowsAgain_witness :
    (verifyDownloadToken true false "tok1" "a@b.com" none none 50 revokedStore).1.valid
      = false :=
  (C4_inactiveGrantNeverAllowsAgain true false "tok1" "a@b.com" none none 50 revokedStore).1 (by decide)

/-- C5: two verify calls whose presented identities agree up to letter
case produce identical results (decision and resulting store): the
identity comparison and the audit row are both lowercased. -/
theorem C5_identityCaseInsensitive (logOk exn : Bool) (token : String) (ip ua : Option String)
    (now : Nat) (s : Store) (e1 e2 : String)
    (h : toLowerCase e1 = toLowerCase e2) :
    verifyDownloadToken logOk exn token e1 ip ua now s
      = verifyDownloadToken logOk exn token e2 ip ua now s := by
  simp only [verifyDownloadToken, logDownloadAttempt, mkAttempt, h]

/-- Witness for C5 at concrete identities differing only in case. -/
theorem C5_identityCaseInsensitive_witness :
    verifyDownloadToken true false "tok1" "A@B.com" none none 50 raceStore
      = verifyDownloadToken true false "tok1" "a@b.com" none none 50 raceStore :=
  C5_identityCaseInsensitive true false "tok1" none none 50 raceStore "A@B.com" "a@b.com" (by decide)

/-- C6: every verify call, on every branch (invalid token, expired,
identity mismatch, quota exceeded, system error, allow), appends exactly
one audit row, recording the lowercased attempted identity and the success
flag, carrying a failure reason on every denial, and a null grant id when
the token does not resolve. -/
theorem C6_everyBranchLogsExactlyOneAttempt (exn : Bool) (token email : String) (ip ua : Option String)
    (now : Nat) (s : Store) :
    ∃ entry : DownloadAttempt,
      (verifyDownloadToken true exn token email ip ua now s).2.attempts
        = s.attempts ++ [entry] ∧
      entry.attempted_email = toLowerCase email ∧
      entry.success = (verifyDownloadToken true exn token email ip ua now s).1.valid ∧
      ((verifyDownloadToken true exn token email ip ua now s).1.valid = false →
        entry.failure_reason.isSome = true) ∧
      (exn = false →
        s.tokens.find? (fun t => t.token == token && t.is_active) = none →
        entry.token_id = none) := by
  cases hexn : exn with
  | true =>
    subst hexn
    rw [verify_exn_eq]
    refine ⟨mkAttempt none email false (some "System error") ip ua now,
      ?_, rfl, rfl, fun _ => rfl, fun _ _ => rfl⟩
    simp [logDownloadAttempt]
  | false =>
    subst hexn
    cases hf : s.tokens.find? (fun t => t.token == token && t.is_active) with
    | none =>
      rw [verify_none_eq true token email ip ua now s hf]
      refine ⟨mkAttempt none email false (some "Invalid or expired token") ip ua now,
        ?_, rfl, rfl, fun _ => rfl, fun _ _ => rfl⟩
      simp [logDownloadAttempt]
    | some td =>
      by_cases h2 : now > td.expires_at
      · rw [verify_expired_eq true token email ip ua now s td hf h2]
        refine ⟨mkAttempt (some td.id) email false (some "Token expired") ip ua now,
          ?_, rfl, rfl, fun _ => rfl, fun _ hn => Option.noConfusion hn⟩
        simp [logDownloadAttempt]
      · by_cases h3 : toLowerCase td.recipient_email ≠ toLowerCase email
        · rw [verify_mismatch_eq true token email ip ua now s td hf h2 h3]
          refine ⟨mkAttempt (some td.id) email false (some "Email mismatch") ip ua now,
            ?_, rfl, rfl, fun _ => rfl, fun _ hn => Option.noConfusion hn⟩
          simp [logDownloadAttempt]
        · push_neg at h3
          by_cases h4 : td.download_count ≥ td.max_downloads
          · rw [verify_quota_eq true token email ip ua now s td hf h2 h3 h4]
            refine ⟨mkAttempt (some td.id) email false (some "Download limit exceeded") ip ua now,
              ?_, rfl, rfl, fun _ => rfl, fun _ hn => Option.noConfusion hn⟩
            simp [logDownloadAttempt]
          · rw [verify_allow_eq true token email ip ua now s td hf h2 h3
              (Nat.lt_of_not_le h4)]
            refine ⟨mkAttempt (some td.id) email true none ip ua now,
              ?_, rfl, rfl, fun hv => Bool.noConfusion hv,
              fun _ hn => Option.noConfusion hn⟩
            simp [logDownloadAttempt]

/-- Witness for C6 at a concrete allow-branch call. -/
theorem C6_everyBranchLogsExactlyOneAttempt_witness :
    ∃ entry : DownloadAttempt,
      (verifyDownloadToken true false "tok1" "a@b.com" none none 50 raceStore).2.attempts
        = raceStore.attempts ++ [entry] ∧
      entry.attempted_email = toLowerCase "a@b.com" ∧
      entry.success = (verifyDownloadToken true false "tok1" "a@b.com" none none 50 raceStore).1.valid ∧
      ((verifyDownloadToken true false "tok1" "a@b.com" none none 50 raceStore).1.valid = false →
        entry.failure_reason.isSome = true) ∧
      (false = false →
        raceStore.tokens.find? (fun t => t.token == "tok1" && t.is_active) = none →
        entry.token_id = none) :=
  C6_everyBranchLogsExactlyOneAttempt false "tok1" "a@b.com" none none 50 raceStore

/-- C7: `unlock_progressive_stages` and `cleanup_expired_sessions` are
idempotent at a fixed instant; an already-unlocked entry is left untouched
by the sweep, and after the sweep an entry is unlocked exactly when it was
already unlocked or its `unlock_time` has passed (monotone transition,
never reversed, only when due). -/
theorem C7_sweepsIdempotentMonotonic (now : Nat) (st : SweepState) :
    unlock_progressive_stages now (unlock_progressive_stages now st)
      = unlock_progressive_stages now st ∧
    cleanup_expired_sessions now (cleanup_expired_sessions now st)
      = cleanup_expired_sessions now st ∧
    (∀ u : ProgressiveUnlock, u.is_unlocked = true → unlockStageRow now u = u) ∧
    (∀ u : ProgressiveUnlock,
      (unlockStageRow now u).is_unlocked
        = (u.is_unlocked || decide (u.unlock_time ≤ now))) := by
  refine ⟨?_, ?_, ?_, ?_⟩
  · simp only [unlock_progressive_stages, List.map_map]
    congr 1
    apply List.map_congr_left
    intro u _
    simp only [Function.comp_apply]
    exact unlockStageRow_idem now u
  · simp only [cleanup_expired_sessions, List.map_map]
    congr 1 <;>
    · apply List.map_congr_left
      intro r _
      simp only [Function.comp_apply]
      by_cases h : r.expires_at < now ∧ r.is_active = true <;> simp [h]
  · intro u hu
    unfold unlockStageRow
    simp [hu]
  · intro u
    unfold unlockStageRow
    by_cases h : u.unlock_time ≤ now ∧ u.is_unlocked = false
    · simp [h, h.1, h.2]
    · by_cases h1 : u.is_unlocked = true
      · simp [h, h1]
      · have h2 : ¬ u.unlock_time ≤ now := by
          intro hle
          exact h ⟨hle, by simpa using h1⟩
        simp [h, h1, h2]

/-- Witness for C7 at a concrete sweep state and unlocked row. -/
theorem C7_sweepsIdempotentMonotonic_witness :
    (unlock_progressive_stages 30 (unlock_progressive_stages 30 sweepState1)
       = unlock_progressive_stages 30 sweepState1) ∧
    unlockStageRow 30 unlockedRow = unlockedRow :=
  ⟨(C7_sweepsIdempotentMonotonic 30 sweepState1).1, (C7_sweepsIdempotentMonotonic 30 sweepState1).2.2.1 unlockedRow (by decide)⟩

/-- C8 counterexample: when persisting the generated token collides with
an existing row's token (unique index violation), the issuance returns
normally with the document silently omitted and the store unchanged — no
retry is attempted and no TokenCollision error is reported to the caller,
contradicting the claimed retry-once-then-fail behaviour. -/
theorem C8_counterexample_collisionSilentlySkipped :
    (raceStore.tokens.any (fun t => t.token == "tok1")) = true ∧
    generateSecureDownloadTokens "a@b.com" 1 500 5 0 "https://x"
        [(collideDoc, "tok1")] 50 raceStore
      = ([], raceStore) := by
  refine ⟨by decide, by decide⟩

/-- C8 (amended): the generator only ever appends new rows (an existing
record is never overwritten), and a document whose candidate token
collides is skipped outright: the call coincides with the call on the
remaining documents, reporting no error. -/
theorem C8_amended_collisionSkipNoOverwrite (email : String) (orderId expAt maxDl gnow : Nat) (base : String)
    (docs : List (DocumentRef × String)) (nid : Nat) (s : Store) :
    (∃ new, (generateSecureDownloadTokens email orderId expAt maxDl gnow base docs nid s).2.tokens
       = s.tokens ++ new) ∧
    (∀ doc tok rest, docs = (doc, tok) :: rest →
      s.tokens.any (fun t => t.token == tok) = true →
      generateSecureDownloadTokens email orderId expAt maxDl gnow base docs nid s
        = generateSecureDownloadTokens email orderId expAt maxDl gnow base rest nid s) := by
  constructor
  · induction docs generalizing nid s with
    | nil => exact ⟨[], by simp [generateSecureDownloadTokens]⟩
    | cons hd tl ih =>
      obtain ⟨doc, tok⟩ := hd
      by_cases hc : s.tokens.any (fun t => t.token == tok)
      · obtain ⟨new1, hnew⟩ := ih nid s
        exact ⟨new1, by simpa [generateSecureDownloadTokens, hc] using hnew⟩
      · obtain ⟨new1, hnew⟩ :=
          ih (nid + 1) { s with tokens := s.tokens ++
            [newTokenRecord email orderId expAt maxDl gnow nid doc tok] }
        refine ⟨newTokenRecord email orderId expAt maxDl gnow nid doc tok :: new1, ?_⟩
        have hstep : (generateSecureDownloadTokens email orderId expAt maxDl gnow base
              ((doc, tok) :: tl) nid s).2
            = (generateSecureDownloadTokens email orderId expAt maxDl gnow base tl (nid + 1)
                { s with tokens := s.tokens ++
                  [newTokenRecord email orderId expAt maxDl gnow nid doc tok] }).2 := by
          simp [generateSecureDownloadTokens, hc]
        rw [hstep, hnew]
        simp
  · intro doc tok rest hdocs hc
    subst hdocs
    simp [generateSecureDownloadTokens, hc]

/-- Witness for C8 (amended) at a concrete colliding document. -/
theorem C8_amended_collisionSkipNoOverwrite_witness :
    generateSecureDownloadTokens "a@b.com" 1 500 5 0 "https://x"
        [(collideDoc, "tok1")] 50 raceStore
      = generateSecureDownloadTokens "a@b.com" 1 500 5 0 "https://x" [] 50 raceStore :=
  (C8_amended_collisionSkipNoOverwrite "a@b.com" 1 500 5 0 "https://x" [(collideDoc, "tok1")] 50 raceStore).2
    collideDoc "tok1" [] rfl (by decide)

/-- C9: the first verify call after expiry reports the Expired reason and
deactivates the grant; every later verify call on the same token reports
the InvalidToken reason instead, because resolution filters on
`is_active = true`. -/
theorem C9_expiredReasonThenInvalidToken (token email email2 : String) (ip ua ip2 ua2 : Option String)
    (now now2 : Nat) (s : Store) (td : SecureDownloadToken)
    (hfind : s.tokens.find? (fun t => t.token == token && t.is_active) = some td)
    (huniq : ∀ t ∈ s.tokens, t.token = token → t = td)
    (hexp : now > td.expires_at) :
    (verifyDownloadToken true false token email ip ua now s).1.reason
      = some "Download link has expired" ∧
    (verifyDownloadToken true false token email2 ip2 ua2 now2
       (verifyDownloadToken true false token email ip ua now s).2).1.reason
      = some "Invalid or expired token" := by
  rw [verify_expired_eq true token email ip ua now s td hfind hexp]
  refine ⟨rfl, ?_⟩
  have hnone : (updateTokenRecord (fun t => { t with is_active := false, updated_at := now })
      td.id (logDownloadAttempt true (some td.id) email false (some "Token expired")
        ip ua now s).tokens).find? (fun t => t.token == token && t.is_active) = none := by
    rw [List.find?_eq_none]
    intro t ht
    simp only [updateTokenRecord, logDownloadAttempt, if_pos rfl, List.mem_map] at ht
    obtain ⟨t0, ht0, rfl⟩ := ht
    by_cases h : t0.id = td.id
    · simp [h]
    · simp only [if_neg h, Bool.and_eq_true, beq_iff_eq, not_and]
      intro htok
      exact absurd (congrArg SecureDownloadToken.id (huniq t0 ht0 htok)) h
  rw [verify_none_eq true token email2 ip2 ua2 now2 _ hnone]

/-- Witness for C9 at a concrete expired grant, verified twice. -/
theorem C9_expiredReasonThenInvalidToken_witness :
    (verifyDownloadToken true false "tok1" "a@b.com" none none 200 raceStore).1.reason
      = some "Download link has expired" ∧
    (verifyDownloadToken true false "tok1" "a@b.com" none none 300
        (verifyDownloadToken true false "tok1" "a@b.com" none none 200 raceStore).2).1.reason
      = some "Invalid or expired token" :=
  C9_expiredReasonThenInvalidToken "tok1" "a@b.com" "a@b.com" none none none none 200 300 raceStore raceGrant
    (by decide) (by decide) (by decide)

/-- C10: the verify decision and the resulting token table are identical
whether the audit insert succeeds or fails — `logDownloadAttempt` swallows
store errors, so a failed audit append never changes the outcome. -/
theorem C10_logFailureDoesNotChangeDecision (exn : Bool) (token email : String)
    (ip ua : Option String) (now : Nat) (s : Store) :
    (verifyDownloadToken true exn token email ip ua now s).1
      = (verifyDownloadToken false exn token email ip ua now s).1 ∧
    (verifyDownloadToken true exn token email ip ua now s).2.tokens
      = (verifyDownloadToken false exn token email ip ua now s).2.tokens := by
  unfold verifyDownloadToken
  cases exn
  · simp only [Bool.false_eq_true, if_false]
    cases hf : s.tokens.find? (fun t => t.token == token && t.is_active) with
    | none => simp [logDownloadAttempt]
    | some td =>
      by_cases h1 : now > td.expires_at
      · simp [h1, logDownloadAttempt]
      · by_cases h2 : toLowerCase td.recipient_email ≠ toLowerCase email
        · simp [h1, h2, logDownloadAttempt]
        · by_cases h3 : td.download_count ≥ td.max_downloads
          · simp [h1, h2, h3, logDownloadAttempt]
          · simp [h1, h2, h3, logDownloadAttempt]
  · simp [logDownloadAttempt]

end SecureDl
